import Mathlib

/-!
# ExampleComponent (custom_components/example_component)

A shallow embedding of `example_component.h` / `example_component.cpp`.

* `uint32_t` values are natural numbers below `2 ^ 32`; the unsigned subtraction
  of the source is written out with an explicit `% 2 ^ 32`.
* `millis()` belongs to the host framework: its return value is the argument
  `now` of `loop`.
* `ESP_LOGCONFIG` and `setup_priority::DATA` belong to the host framework as
  well and are taken as parameters.
-/

namespace esphome
namespace example_component

/-- The modulus of `uint32_t` arithmetic, `2 ^ 32`. -/
def UINT32_MOD : Nat := 4294967296

/-- The largest `uint32_t`, `2 ^ 32 - 1`. -/
def UINT32_MAX : Nat := 4294967295

/-- The class `ExampleComponent`: its only data member is
`uint32_t last_update_`. -/
structure ExampleComponent where
  last_update_ : Nat
  deriving DecidableEq, Repr

/-- A newly constructed component: the member initialiser `last_update_{0}`. -/
def ExampleComponent.new : ExampleComponent :=
  { last_update_ := 0 }

/-- The log tag `static const char *const TAG`. -/
def TAG : String := "example_component"

/-- The `uint32_t` subtraction `a - b` of C++, for `a` and `b` below `2 ^ 32`:
the difference reduced modulo `2 ^ 32`. -/
def sub_u32 (a b : Nat) : Nat :=
  (a + UINT32_MOD - b) % UINT32_MOD

/-- The expression `now - this->last_update_` of `loop`. -/
def elapsed (self : ExampleComponent) (now : Nat) : Nat :=
  sub_u32 now self.last_update_

/-- The comparison of `loop` with its literal abstracted:
`elapsed > interval`. The source uses it at `interval = 1000` only. -/
def interval_check (interval elapsed : Nat) : Bool :=
  decide (elapsed > interval)

/-- The condition of the `if` in `loop`: `now - this->last_update_ > 1000`. -/
def fires (self : ExampleComponent) (now : Nat) : Bool :=
  interval_check 1000 (elapsed self now)

/-- The method `ExampleComponent::loop`, with the value `now` that `millis()`
returned:
`if (now - this->last_update_ > 1000) { this->last_update_ = now; }`. -/
def loop (self : ExampleComponent) (now : Nat) : ExampleComponent :=
  if fires self now then { self with last_update_ := now } else self

/-- The method `ExampleComponent::setup`: one `ESP_LOGCONFIG` call. The host
state `σ` (the logger) and the effect `logconfig` of the macro on it come from
the framework; the component is passed through. -/
def setup {σ : Type} (logconfig : String → String → σ → σ)
    (self : ExampleComponent) (host : σ) : ExampleComponent × σ :=
  (self, logconfig TAG "Setting up Example Component..." host)

/-- The method `ExampleComponent::dump_config`: one `ESP_LOGCONFIG` call. -/
def dump_config {σ : Type} (logconfig : String → String → σ → σ)
    (self : ExampleComponent) (host : σ) : ExampleComponent × σ :=
  (self, logconfig TAG "Example Component:" host)

/-- The `const` method `get_setup_priority`: returns `setup_priority::DATA`,
a constant of the framework taken as the parameter `DATA`; the second component
is the state after the call. -/
def get_setup_priority {α : Type} (DATA : α) (self : ExampleComponent) :
    α × ExampleComponent :=
  (DATA, self)

/-- The state after a sequence of `loop` calls, one per clock reading. -/
def run (self : ExampleComponent) : List Nat → ExampleComponent
  | [] => self
  | now :: rest => run (loop self now) rest

/-- The number of calls of a sequence of `loop` calls that fire and whose
clock reading lies in the window `[lo, hi]`. -/
def fired_in_window (lo hi : Nat) (self : ExampleComponent) : List Nat → Nat
  | [] => 0
  | now :: rest =>
    (if fires self now && decide (lo ≤ now) && decide (now ≤ hi) then 1 else 0)
      + fired_in_window lo hi (loop self now) rest

/-- A sequence of clock readings of a counter that does not wrap: every
reading is a `uint32_t` and the readings are non-decreasing. -/
def clock_ok (readings : List Nat) : Prop :=
  (∀ now ∈ readings, now < UINT32_MOD) ∧ readings.Pairwise (· ≤ ·)

/-! ## Arithmetic of the unsigned subtraction -/

theorem sub_u32_self (a : Nat) : sub_u32 a a = 0 := by
  simp [sub_u32, UINT32_MOD]

theorem sub_u32_of_le {a b : Nat} (hba : b ≤ a) (ha : a < UINT32_MOD) :
    sub_u32 a b = a - b := by
  simp only [sub_u32, UINT32_MOD] at *
  omega

theorem sub_u32_add_mod {b d : Nat} (hb : b < UINT32_MOD) (hd : d < UINT32_MOD) :
    sub_u32 ((b + d) % UINT32_MOD) b = d := by
  simp only [sub_u32, UINT32_MOD] at *
  omega

theorem sub_u32_int {a b : Nat} (ha : a < UINT32_MOD) (hb : b < UINT32_MOD) :
    ((sub_u32 a b : Nat) : Int) = ((a : Int) - (b : Int)) % 4294967296 := by
  simp only [sub_u32, UINT32_MOD] at *
  omega

theorem fires_iff (s : ExampleComponent) (now : Nat) :
    fires s now = true ↔ 1000 < elapsed s now := by
  simp [fires, interval_check]

theorem fires_eq_false_iff (s : ExampleComponent) (now : Nat) :
    fires s now = false ↔ elapsed s now ≤ 1000 := by
  simp [fires, interval_check]

theorem loop_of_fires {s : ExampleComponent} {now : Nat} (h : fires s now = true) :
    loop s now = { last_update_ := now } := by
  simp [loop, h]

theorem loop_of_not_fires {s : ExampleComponent} {now : Nat}
    (h : fires s now = false) : loop s now = s := by
  simp [loop, h]

theorem loop_cases (s : ExampleComponent) (now : Nat) :
    (fires s now = true ∧ loop s now = { last_update_ := now }) ∨
      (fires s now = false ∧ loop s now = s) := by
  cases h : fires s now
  · exact Or.inr ⟨rfl, loop_of_not_fires h⟩
  · exact Or.inl ⟨rfl, loop_of_fires h⟩

theorem run_append (s : ExampleComponent) (xs ys : List Nat) :
    run s (xs ++ ys) = run (run s xs) ys := by
  induction xs generalizing s with
  | nil => rfl
  | cons x xs ih => simp [run, ih]

/-- Between a firing at `t` and `t + 1000` nothing happens: readings in
`[t, t + 1000]` leave the state at `t`. -/
theorem run_quiet (t : Nat) (rs : List Nat)
    (h : ∀ x ∈ rs, t ≤ x ∧ x ≤ t + 1000 ∧ x < UINT32_MOD) :
    run { last_update_ := t } rs = { last_update_ := t } := by
  induction rs with
  | nil => rfl
  | cons x rs ih =>
    have hx := h x (List.mem_cons_self x rs)
    have hnf : fires { last_update_ := t } x = false := by
      rw [fires_eq_false_iff, elapsed, sub_u32_of_le hx.1 hx.2.2]
      omega
    simp only [run, loop_of_not_fires hnf]
    exact ih (fun y hy => h y (List.mem_cons_of_mem x hy))

/-- The stored timestamp never exceeds a bound on itself and on all readings. -/
theorem run_last_le (bound : Nat) (rs : List Nat) (s : ExampleComponent)
    (hs : s.last_update_ ≤ bound) (h : ∀ x ∈ rs, x ≤ bound) :
    (run s rs).last_update_ ≤ bound := by
  induction rs generalizing s with
  | nil => exact hs
  | cons x rs ih =>
    have hx := h x (List.mem_cons_self x rs)
    simp only [run]
    apply ih
    · rcases loop_cases s x with ⟨_, hl⟩ | ⟨_, hl⟩ <;> rw [hl]
      · exact hx
      · exact hs
    · exact fun y hy => h y (List.mem_cons_of_mem x hy)

theorem fired_in_window_cons (lo hi : Nat) (s : ExampleComponent) (now : Nat)
    (rest : List Nat) :
    fired_in_window lo hi s (now :: rest) =
      (if fires s now && decide (lo ≤ now) && decide (now ≤ hi) then 1 else 0)
        + fired_in_window lo hi (loop s now) rest := rfl

/-- Once the stored timestamp `L` lies at or after the start of the window and
at or before every reading, each firing inside the window uses up more than
1000 ms of what is left of the window. -/
theorem fired_in_window_after (lo hi : Nat) (rs : List Nat) (L : Nat)
    (hL : lo ≤ L) (hrs : ∀ x ∈ rs, L ≤ x ∧ x < UINT32_MOD)
    (hsorted : rs.Pairwise (· ≤ ·)) :
    1001 * fired_in_window lo hi { last_update_ := L } rs ≤ hi - L := by
  induction rs generalizing L with
  | nil => simp [fired_in_window]
  | cons x rs ih =>
    have hx := hrs x (List.mem_cons_self x rs)
    rw [List.pairwise_cons] at hsorted
    rw [fired_in_window_cons]
    rcases loop_cases { last_update_ := L } x with ⟨hf, hl⟩ | ⟨hf, hl⟩
    · have hgap : 1000 < x - L := by
        have := (fires_iff _ _).1 hf
        rwa [elapsed, sub_u32_of_le hx.1 hx.2] at this
      have ih' := ih x (by omega)
        (fun y hy => ⟨hsorted.1 y hy, (hrs y (List.mem_cons_of_mem x hy)).2⟩)
        hsorted.2
      rw [hl, hf]
      by_cases hwin : x ≤ hi
      · have hlo : lo ≤ x := by omega
        have hone : (if (true && decide (lo ≤ x) && decide (x ≤ hi)) = true
            then 1 else 0) = 1 := by simp [hwin, hlo]
        rw [hone]
        omega
      · have hzero : (if (true && decide (lo ≤ x) && decide (x ≤ hi)) = true
            then 1 else 0) = 0 := by simp [hwin]
        rw [hzero]
        omega
    · have ih' := ih L hL
        (fun y hy => hrs y (List.mem_cons_of_mem x hy)) hsorted.2
      rw [hl, hf]
      simpa using ih'

/-- At most one firing more than the window holds gaps of 1001 ms, from any
state whatever. -/
theorem fired_in_window_le (lo hi : Nat) (rs : List Nat) (s : ExampleComponent)
    (hrs : ∀ x ∈ rs, x < UINT32_MOD) (hsorted : rs.Pairwise (· ≤ ·)) :
    fired_in_window lo hi s rs ≤ (hi - lo) / 1001 + 1 := by
  induction rs generalizing s with
  | nil => simp [fired_in_window]
  | cons x rs ih =>
    have hx := hrs x (List.mem_cons_self x rs)
    rw [List.pairwise_cons] at hsorted
    have ih' := fun s' => ih s' (fun y hy => hrs y (List.mem_cons_of_mem x hy))
      hsorted.2
    rw [fired_in_window_cons]
    by_cases hin : (fires s x && decide (lo ≤ x) && decide (x ≤ hi)) = true
    · simp only [Bool.and_eq_true, decide_eq_true_eq] at hin
      obtain ⟨⟨hf, hlo⟩, hhi⟩ := hin
      have hafter := fired_in_window_after lo hi rs x hlo
        (fun y hy => ⟨hsorted.1 y hy, hrs y (List.mem_cons_of_mem x hy)⟩)
        hsorted.2
      have hone : (if (fires s x && decide (lo ≤ x) && decide (x ≤ hi)) = true
          then 1 else 0) = 1 := by simp [hf, hlo, hhi]
      rw [loop_of_fires hf, hone]
      have : fired_in_window lo hi { last_update_ := x } rs ≤ (hi - lo) / 1001 := by
        rw [Nat.le_div_iff_mul_le (by norm_num)]
        omega
      omega
    · rw [if_neg hin, Nat.zero_add]
      exact ih' _

/-! ## Properties of `loop` and of the lifecycle methods -/

/-- Claim C1, as the code has it: for every 32-bit `last_update_` and every
32-bit reading `now`, one call of `loop` computes
`elapsed = (now - last_update_) mod 2 ^ 32`; if `elapsed > 1000` the call fires
and sets `last_update_` to `now`; if `elapsed ≤ 1000` it does not fire and
leaves the state unchanged. In particular a call whose elapsed is exactly 1000
does not fire. -/
theorem loop_contract (s : ExampleComponent) (now : Nat)
    (hs : s.last_update_ < UINT32_MOD) (hnow : now < UINT32_MOD) :
    ((elapsed s now : Nat) : Int)
        = ((now : Int) - (s.last_update_ : Int)) % 4294967296 ∧
      (1000 < elapsed s now →
        fires s now = true ∧ loop s now = { last_update_ := now }) ∧
      (elapsed s now ≤ 1000 → fires s now = false ∧ loop s now = s) ∧
      (elapsed s now = 1000 → fires s now = false ∧ loop s now = s) := by
  refine ⟨sub_u32_int hnow hs, ?_, ?_, ?_⟩
  · intro h
    have hf := (fires_iff s now).2 h
    exact ⟨hf, loop_of_fires hf⟩
  · intro h
    have hf := (fires_eq_false_iff s now).2 h
    exact ⟨hf, loop_of_not_fires hf⟩
  · intro h
    have hf := (fires_eq_false_iff s now).2 (le_of_eq h)
    exact ⟨hf, loop_of_not_fires hf⟩

/-- Witness of `loop_contract`: the state `last_update_ = 0` and the reading
`now = 1000`, where the elapsed time is exactly the interval. -/
theorem loop_contract_witness :
    (0 : Nat) < UINT32_MOD ∧ (1000 : Nat) < UINT32_MOD ∧
      elapsed { last_update_ := 0 } 1000 = 1000 ∧
      fires { last_update_ := 0 } 1000 = false ∧
      loop { last_update_ := 0 } 1000 = { last_update_ := 0 } :=
  ⟨by decide, by decide, by decide,
    (loop_contract { last_update_ := 0 } 1000 (by decide) (by decide)).2.2.2
      (by decide)⟩

/-- Claim C1 as written fails: with `last_update_ = 0` and `now = 1000` the
elapsed time is 1000, which is `≥ 1000`, yet `loop` does not set
`last_update_` to `now`. -/
theorem loop_contract_ge_fails :
    elapsed { last_update_ := 0 } 1000 = 1000 ∧
      ¬ (1000 ≤ elapsed { last_update_ := 0 } 1000 →
          (loop { last_update_ := 0 } 1000).last_update_ = 1000) := by
  decide

/-- Claim C2: in a sequence of `loop` calls whose readings are non-decreasing
`uint32_t` values, from any state, if the call at reading `t` fires, then a
later call at a reading `now < t + 1000` does not fire, and `last_update_` is
`t` after it. -/
theorem no_premature_fire (s : ExampleComponent) (pre mid post : List Nat)
    (t now : Nat) (hclock : clock_ok (pre ++ t :: (mid ++ now :: post)))
    (hfire : fires (run s pre) t = true) (hnow : now < t + 1000) :
    fires (run s (pre ++ t :: mid)) now = false ∧
      (run s (pre ++ t :: (mid ++ [now]))).last_update_ = t := by
  obtain ⟨hbound, hsorted⟩ := hclock
  have htail : (t :: (mid ++ now :: post)).Pairwise (· ≤ ·) :=
    (List.pairwise_append.1 hsorted).2.1
  rw [List.pairwise_cons] at htail
  have hmid : (mid ++ now :: post).Pairwise (· ≤ ·) := htail.2
  have hmid_now : ∀ x ∈ mid, x ≤ now := fun x hx =>
    (List.pairwise_append.1 hmid).2.2 x hx now (List.mem_cons_self now post)
  have hquiet : ∀ x ∈ mid ++ [now], t ≤ x ∧ x ≤ t + 1000 ∧ x < UINT32_MOD := by
    intro x hx
    have hx' : x ∈ mid ++ now :: post := by
      rcases List.mem_append.1 hx with h | h
      · exact List.mem_append_left _ h
      · exact List.mem_append_right _
          (List.mem_cons.2 (Or.inl (List.mem_singleton.1 h)))
    refine ⟨htail.1 x hx', ?_, hbound x ?_⟩
    · rcases List.mem_append.1 hx with h | h
      · have := hmid_now x h
        omega
      · have := List.mem_singleton.1 h
        omega
    · exact List.mem_append_right _ (List.mem_cons_of_mem t hx')
  have hstate : ∀ ys, run s (pre ++ t :: ys) = run { last_update_ := t } ys := by
    intro ys
    rw [run_append]
    simp only [run, loop_of_fires hfire]
  have hq := run_quiet t (mid ++ [now]) hquiet
  refine ⟨?_, by rw [hstate, hq]⟩
  rw [hstate, run_quiet t mid (fun x hx => hquiet x (List.mem_append_left _ hx))]
  have hn := hquiet now (List.mem_append_right _ (List.mem_singleton_self now))
  rw [fires_eq_false_iff, elapsed, sub_u32_of_le hn.1 hn.2.2]
  omega

/-- Witness of `no_premature_fire`: from `last_update_ = 0` the readings
`1500, 1800, 2400, 2600`: the call at 1500 fires, the call at 2400 does not. -/
theorem no_premature_fire_witness :
    clock_ok ([] ++ 1500 :: ([1800] ++ 2400 :: [2600])) ∧
      fires (run { last_update_ := 0 } []) 1500 = true ∧
      fires (run { last_update_ := 0 } ([] ++ 1500 :: [1800])) 2400 = false ∧
      (run { last_update_ := 0 } ([] ++ 1500 :: ([1800] ++ [2400]))).last_update_
        = 1500 :=
  have hclock : clock_ok ([] ++ 1500 :: ([1800] ++ 2400 :: [2600])) := by
    unfold clock_ok UINT32_MOD
    constructor
    · intro x hx
      simp at hx
      omega
    · simp
  ⟨hclock, by decide,
    no_premature_fire { last_update_ := 0 } [] [1800] [2600] 1500 2400 hclock
      (by decide) (by decide)⟩

/-- Claim C3: for every starting state and every finite sequence of `loop`
calls whose readings are non-decreasing `uint32_t` values, the number of calls
that fire and whose reading lies in a window `[lo, lo + T]` of clock time is at
most `T / 1000 + 1` (floor division). -/
theorem interval_property (s : ExampleComponent) (readings : List Nat)
    (hclock : clock_ok readings) (lo T : Nat) :
    fired_in_window lo (lo + T) s readings ≤ T / 1000 + 1 := by
  have h := fired_in_window_le lo (lo + T) readings s hclock.1 hclock.2
  have hT : (lo + T - lo) / 1001 ≤ T / 1000 := by
    rw [Nat.add_sub_cancel_left]
    exact Nat.div_le_div_left (by norm_num) (by norm_num)
  omega

/-- Witness of `interval_property`: readings every 600 ms from 600 to 3600,
counted over the window `[1000, 3000]`. -/
theorem interval_property_witness :
    clock_ok [600, 1200, 1800, 2400, 3000, 3600] ∧
      fired_in_window 1000 (1000 + 2000) { last_update_ := 0 }
        [600, 1200, 1800, 2400, 3000, 3600] ≤ 2000 / 1000 + 1 :=
  have hclock : clock_ok [600, 1200, 1800, 2400, 3000, 3600] := by
    unfold clock_ok UINT32_MOD
    constructor
    · intro x hx
      simp at hx
      omega
    · simp
  ⟨hclock, interval_property { last_update_ := 0 } _ hclock 1000 2000⟩

/-- Claim C4, as the code has it: from the initial state `last_update_ = 0`,
the call at `now = 500` does not fire and `last_update_` stays 0; the next call
at `now = 1000` does not fire either (the elapsed time is 1000, not more) and
`last_update_` stays 0; the next call at `now = 1500` fires and `last_update_`
becomes 1500. -/
theorem concrete_scenario :
    fires ExampleComponent.new 500 = false ∧
      (loop ExampleComponent.new 500).last_update_ = 0 ∧
      fires (loop ExampleComponent.new 500) 1000 = false ∧
      (loop (loop ExampleComponent.new 500) 1000).last_update_ = 0 ∧
      fires (loop (loop ExampleComponent.new 500) 1000) 1500 = true ∧
      (loop (loop (loop ExampleComponent.new 500) 1000) 1500).last_update_
        = 1500 := by
  decide

/-- Claim C4 as written fails at its second call: after the call at
`now = 500`, the call at `now = 1000` does not fire and `last_update_` is not
1000 after it; and the third call, at `now = 1500`, fires. -/
theorem concrete_scenario_second_call_fails :
    ¬ (fires (loop ExampleComponent.new 500) 1000 = true) ∧
      (loop (loop ExampleComponent.new 500) 1000).last_update_ ≠ 1000 ∧
      ¬ (fires (loop (loop ExampleComponent.new 500) 1000) 1500 = false) := by
  decide

/-- Claim C5: with `last_update_ = MAX - 10` (`MAX = 2 ^ 32 - 1`) and `now = 5`
the unsigned subtraction of `loop` gives exactly 16; the interval check on
that value is not due for an interval of 20 and due for an interval of 10; and
`loop`, with its interval of 1000, leaves `last_update_ = MAX - 10`. -/
theorem wraparound_instance :
    UINT32_MAX = 2 ^ 32 - 1 ∧
      elapsed { last_update_ := UINT32_MAX - 10 } 5 = 16 ∧
      interval_check 20 (elapsed { last_update_ := UINT32_MAX - 10 } 5) = false ∧
      interval_check 10 (elapsed { last_update_ := UINT32_MAX - 10 } 5) = true ∧
      fires { last_update_ := UINT32_MAX - 10 } 5 = false ∧
      loop { last_update_ := UINT32_MAX - 10 } 5
        = { last_update_ := UINT32_MAX - 10 } := by
  decide

/-- Claim C6: for every 32-bit `last_update_` and every duration `d < 2 ^ 32`,
at the reading `now = (last_update_ + d) mod 2 ^ 32` the elapsed value that
`loop` computes is exactly `d`, whether or not the counter wrapped; so `loop`
fires exactly when `d > 1000`. -/
theorem wraparound_tolerance (s : ExampleComponent) (d : Nat)
    (hs : s.last_update_ < UINT32_MOD) (hd : d < UINT32_MOD) :
    elapsed s ((s.last_update_ + d) % UINT32_MOD) = d ∧
      fires s ((s.last_update_ + d) % UINT32_MOD) = decide (1000 < d) ∧
      loop s ((s.last_update_ + d) % UINT32_MOD)
        = if 1000 < d then { last_update_ := (s.last_update_ + d) % UINT32_MOD }
          else s := by
  have he : elapsed s ((s.last_update_ + d) % UINT32_MOD) = d :=
    sub_u32_add_mod hs hd
  have hf : fires s ((s.last_update_ + d) % UINT32_MOD) = decide (1000 < d) := by
    simp [fires, interval_check, he]
  refine ⟨he, hf, ?_⟩
  by_cases h : 1000 < d
  · rw [if_pos h]
    exact loop_of_fires (by rw [hf]; exact decide_eq_true h)
  · rw [if_neg h]
    exact loop_of_not_fires (by rw [hf]; exact decide_eq_false h)

/-- Witness of `wraparound_tolerance`: `last_update_ = MAX - 10` and a duration
of 2000 ms, across the wraparound: the reading is 1989. -/
theorem wraparound_tolerance_witness :
    UINT32_MAX - 10 < UINT32_MOD ∧ 2000 < UINT32_MOD ∧
      (UINT32_MAX - 10 + 2000) % UINT32_MOD = 1989 ∧
      elapsed { last_update_ := UINT32_MAX - 10 }
        ((UINT32_MAX - 10 + 2000) % UINT32_MOD) = 2000 :=
  ⟨by decide, by decide, by decide,
    (wraparound_tolerance { last_update_ := UINT32_MAX - 10 } 2000
      (by decide) (by decide)).1⟩

/-- Claim C7: for every state and every reading `now`, two `loop` calls in a
row at the same `now` give the same state as one, and the second call does not
fire. -/
theorem loop_idempotent (s : ExampleComponent) (now : Nat) :
    loop (loop s now) now = loop s now ∧ fires (loop s now) now = false := by
  have hsecond : fires (loop s now) now = false := by
    rcases loop_cases s now with ⟨_, hl⟩ | ⟨hf, hl⟩
    · rw [hl, fires_eq_false_iff, elapsed, sub_u32_self]
      exact Nat.zero_le _
    · rw [hl, hf]
  exact ⟨loop_of_not_fires hsecond, hsecond⟩

/-- Claim C8: a newly constructed component has `last_update_ = 0`; `setup`,
`dump_config` and `get_setup_priority` leave the component unchanged in every
state, whatever the logging macro does to the host; `loop` can change
`last_update_`. -/
theorem lifecycle_frame :
    ExampleComponent.new.last_update_ = 0 ∧
      (∀ (σ : Type) (logconfig : String → String → σ → σ)
          (s : ExampleComponent) (host : σ), (setup logconfig s host).1 = s) ∧
      (∀ (σ : Type) (logconfig : String → String → σ → σ)
          (s : ExampleComponent) (host : σ),
          (dump_config logconfig s host).1 = s) ∧
      (∀ (α : Type) (DATA : α) (s : ExampleComponent),
          (get_setup_priority DATA s).2 = s) ∧
      (∃ (s : ExampleComponent) (now : Nat),
          (loop s now).last_update_ ≠ s.last_update_) :=
  ⟨rfl, fun _ _ _ _ => rfl, fun _ _ _ _ => rfl, fun _ _ _ => rfl,
    ⟨{ last_update_ := 0 }, 1001, by decide⟩⟩

/-- Claim C9: in a run of `loop` calls from the initial state whose readings
are non-decreasing `uint32_t` values, at each call `last_update_` does not
decrease, it is afterwards either its previous value or the current reading,
and it is not greater than the current reading. -/
theorem timestamp_monotone (pre post : List Nat) (now : Nat)
    (hclock : clock_ok (pre ++ now :: post)) :
    (run ExampleComponent.new pre).last_update_
        ≤ (loop (run ExampleComponent.new pre) now).last_update_ ∧
      ((loop (run ExampleComponent.new pre) now).last_update_
          = (run ExampleComponent.new pre).last_update_ ∨
        (loop (run ExampleComponent.new pre) now).last_update_ = now) ∧
      (loop (run ExampleComponent.new pre) now).last_update_ ≤ now := by
  obtain ⟨_, hsorted⟩ := hclock
  have hpre : ∀ x ∈ pre, x ≤ now := fun x hx =>
    (List.pairwise_append.1 hsorted).2.2 x hx now (List.mem_cons_self now post)
  have hle : (run ExampleComponent.new pre).last_update_ ≤ now :=
    run_last_le now pre ExampleComponent.new (Nat.zero_le now) hpre
  rcases loop_cases (run ExampleComponent.new pre) now with ⟨_, hl⟩ | ⟨_, hl⟩
  · rw [hl]
    exact ⟨hle, Or.inr rfl, le_refl now⟩
  · rw [hl]
    exact ⟨le_refl _, Or.inl rfl, hle⟩

/-- Witness of `timestamp_monotone`: the readings `500, 1200, 1500, 2600`,
at the call with reading 1500. -/
theorem timestamp_monotone_witness :
    clock_ok ([500, 1200] ++ 1500 :: [2600]) ∧
      (run ExampleComponent.new [500, 1200]).last_update_ = 1200 ∧
      (loop (run ExampleComponent.new [500, 1200]) 1500).last_update_ ≤ 1500 :=
  have hclock : clock_ok ([500, 1200] ++ 1500 :: [2600]) := by
    unfold clock_ok UINT32_MOD
    constructor
    · intro x hx
      simp at hx
      omega
    · simp
  ⟨hclock, by decide, (timestamp_monotone [500, 1200] [2600] 1500 hclock).2.2⟩

/-- Claim C10: for every 32-bit `last_update_` and every 32-bit reading `now`,
also after a wraparound of the counter, the state that `loop` returns satisfies
`(now - last_update_) mod 2 ^ 32 ≤ 1000`. -/
theorem bounded_staleness (s : ExampleComponent) (now : Nat)
    (hs : s.last_update_ < UINT32_MOD) (hnow : now < UINT32_MOD) :
    elapsed (loop s now) now ≤ 1000 ∧
      ((now : Int) - ((loop s now).last_update_ : Int)) % 4294967296 ≤ 1000 := by
  have hbound : elapsed (loop s now) now ≤ 1000 := by
    rcases loop_cases s now with ⟨_, hl⟩ | ⟨hf, hl⟩
    · rw [hl, elapsed, sub_u32_self]
      exact Nat.zero_le _
    · rw [hl]
      exact (fires_eq_false_iff s now).1 hf
  have hlast : (loop s now).last_update_ < UINT32_MOD := by
    rcases loop_cases s now with ⟨_, hl⟩ | ⟨_, hl⟩ <;> rw [hl]
    · exact hnow
    · exact hs
  refine ⟨hbound, ?_⟩
  rw [← sub_u32_int hnow hlast]
  exact_mod_cast hbound

/-- Witness of `bounded_staleness`: `last_update_ = MAX - 10` and the reading
`now = 5`, taken after the counter wrapped. -/
theorem bounded_staleness_witness :
    UINT32_MAX - 10 < UINT32_MOD ∧ 5 < UINT32_MOD ∧
      elapsed (loop { last_update_ := UINT32_MAX - 10 } 5) 5 ≤ 1000 :=
  ⟨by decide, by decide,
    (bounded_staleness { last_update_ := UINT32_MAX - 10 } 5
      (by decide) (by decide)).1⟩

end example_component
end esphome
